import Mathlib

/-!
Verification of the geometry-processing core of the GeoJSON canvas component
(file `src/GeoJSONCanvas.tsx`): the Mercator-style projector, the feature
extractor, the bounds calculator, the fit-to-bounds viewport computation, the
renderer draw-call generation and the hit-testing algorithms.

The embedding models JavaScript numbers as extended reals with a NaN element
(`JsNum`): the arithmetic on them follows the IEEE-754 extended rules exactly
(no rounding is modelled — finite arithmetic is exact real arithmetic).  The
transcendental projection formula is read with its ideal real semantics: at
the cosine singularity (latitude ±90 mod 360) the inner expression diverges,
matching the behaviour the specification itself ascribes to these latitudes.
Untyped GeoJSON input values are modelled by the inductive `JVal`; property
access on a missing key yields `JVal.null`, which stands for the JavaScript
`undefined` (both are falsy and coerce to NaN in arithmetic here).
-/

namespace GeoCanvas

/-- A JavaScript number: a finite real, one of the two infinities, or NaN. -/
inductive JsNum where
  | fin (x : ℝ)
  | posInf
  | negInf
  | nan

/-- JavaScript `Number.isFinite`. -/
def JsNum.isFinite : JsNum → Bool
  | .fin _ => true
  | _ => false

/-- JavaScript `x === 0` (there is no negative zero in this model). -/
noncomputable def JsNum.isZero : JsNum → Bool
  | .fin x => decide (x = 0)
  | _ => false

/-- JavaScript `+` on numbers (IEEE-754 extended-real rules, exact finite part). -/
def jsAdd : JsNum → JsNum → JsNum
  | .nan, _ => .nan
  | _, .nan => .nan
  | .posInf, .negInf => .nan
  | .negInf, .posInf => .nan
  | .posInf, _ => .posInf
  | _, .posInf => .posInf
  | .negInf, _ => .negInf
  | _, .negInf => .negInf
  | .fin x, .fin y => .fin (x + y)

/-- JavaScript binary `-` on numbers. -/
def jsSub : JsNum → JsNum → JsNum
  | .nan, _ => .nan
  | _, .nan => .nan
  | .posInf, .posInf => .nan
  | .negInf, .negInf => .nan
  | .posInf, _ => .posInf
  | .negInf, _ => .negInf
  | _, .posInf => .negInf
  | _, .negInf => .posInf
  | .fin x, .fin y => .fin (x - y)

/-- JavaScript `*` on numbers.  An infinity times zero is NaN. -/
noncomputable def jsMul : JsNum → JsNum → JsNum
  | .nan, _ => .nan
  | _, .nan => .nan
  | .posInf, .posInf => .posInf
  | .posInf, .negInf => .negInf
  | .negInf, .posInf => .negInf
  | .negInf, .negInf => .posInf
  | .posInf, .fin y => if 0 < y then .posInf else if y < 0 then .negInf else .nan
  | .fin x, .posInf => if 0 < x then .posInf else if x < 0 then .negInf else .nan
  | .negInf, .fin y => if 0 < y then .negInf else if y < 0 then .posInf else .nan
  | .fin x, .negInf => if 0 < x then .negInf else if x < 0 then .posInf else .nan
  | .fin x, .fin y => .fin (x * y)

/-- JavaScript `/` on numbers.  Division by zero gives a signed infinity
(zero is treated as positive zero) and zero over zero gives NaN. -/
noncomputable def jsDiv : JsNum → JsNum → JsNum
  | .nan, _ => .nan
  | _, .nan => .nan
  | .posInf, .posInf => .nan
  | .posInf, .negInf => .nan
  | .negInf, .posInf => .nan
  | .negInf, .negInf => .nan
  | .posInf, .fin y => if y < 0 then .negInf else .posInf
  | .negInf, .fin y => if y < 0 then .posInf else .negInf
  | .fin _, .posInf => .fin 0
  | .fin _, .negInf => .fin 0
  | .fin x, .fin y =>
      if y = 0 then (if x = 0 then .nan else if 0 < x then .posInf else .negInf)
      else .fin (x / y)

/-- JavaScript `Math.min` on two numbers: NaN if either argument is NaN. -/
noncomputable def jsMin : JsNum → JsNum → JsNum
  | .nan, _ => .nan
  | _, .nan => .nan
  | .negInf, _ => .negInf
  | _, .negInf => .negInf
  | .posInf, b => b
  | a, .posInf => a
  | .fin x, .fin y => .fin (min x y)

/-- JavaScript `Math.max` on two numbers: NaN if either argument is NaN. -/
noncomputable def jsMax : JsNum → JsNum → JsNum
  | .nan, _ => .nan
  | _, .nan => .nan
  | .posInf, _ => .posInf
  | _, .posInf => .posInf
  | .negInf, b => b
  | a, .negInf => a
  | .fin x, .fin y => .fin (max x y)

/-- JavaScript `<=` on numbers: false whenever either side is NaN. -/
noncomputable def jsLe : JsNum → JsNum → Bool
  | .nan, _ => false
  | _, .nan => false
  | .negInf, _ => true
  | _, .posInf => true
  | .posInf, _ => false
  | _, .negInf => false
  | .fin x, .fin y => decide (x ≤ y)

/-- JavaScript `<` on numbers: false whenever either side is NaN. -/
noncomputable def jsLt : JsNum → JsNum → Bool
  | .nan, _ => false
  | _, .nan => false
  | .posInf, _ => false
  | _, .negInf => false
  | .negInf, _ => true
  | _, .posInf => true
  | .fin x, .fin y => decide (x < y)

/-- The exact value of `Math.hypot a b` on finite arguments. -/
noncomputable def realHypot (a b : ℝ) : ℝ := Real.sqrt (a ^ 2 + b ^ 2)

/-- JavaScript `Math.hypot` on two numbers: positive infinity if either
argument is infinite (even when the other is NaN), NaN if an argument is NaN,
else the Euclidean norm. -/
noncomputable def jsHypot : JsNum → JsNum → JsNum
  | .posInf, _ => .posInf
  | .negInf, _ => .posInf
  | _, .posInf => .posInf
  | _, .negInf => .posInf
  | .nan, _ => .nan
  | _, .nan => .nan
  | .fin x, .fin y => .fin (realHypot x y)

/-- Embed the non-NaN JavaScript numbers into the extended reals (NaN is sent
to the junk value 0; every use is guarded by a non-NaN hypothesis). -/
noncomputable def JsNum.toE : JsNum → EReal
  | .fin x => (x : EReal)
  | .posInf => ⊤
  | .negInf => ⊥
  | .nan => 0

/-- A JavaScript value, restricted to the shapes the component inspects.
`JVal.null` also stands for `undefined`: both are falsy, are not equal to any
string tag, and behave as NaN when used as a coordinate.  (The component
never distinguishes the two on the paths modelled here.) -/
inductive JVal where
  | null
  | bool (b : Bool)
  | num (n : JsNum)
  | str (s : String)
  | arr (elems : List JVal)
  | obj (fields : List (String × JVal))

/-- JavaScript property access `v[k]`; a missing key or a non-object receiver
yields `null` (standing for `undefined`).  The component only dereferences
properties behind truthiness guards, so the throwing cases of JavaScript
property access on `null`/`undefined` are never reached. -/
def JVal.get : JVal → String → JVal
  | .obj fields, k =>
      match fields.find? (fun p => p.1 == k) with
      | some p => p.2
      | none => .null
  | _, _ => .null

/-- JavaScript truthiness.  Falsy values: `null`/`undefined`, `false`, `0`,
NaN, and the empty string. -/
noncomputable def JVal.truthy : JVal → Bool
  | .null => false
  | .bool b => b
  | .num (.fin x) => decide (x ≠ 0)
  | .num .nan => false
  | .num _ => true
  | .str s => decide (s ≠ "")
  | .arr _ => true
  | .obj _ => true

/-- JavaScript `v === s` for a string literal `s`. -/
def JVal.eqStr : JVal → String → Bool
  | .str t, s => t == s
  | _, _ => false

/-- JavaScript `v[i]` for a numeric index; out of range or a non-array
receiver yields `null` (standing for `undefined`). -/
def JVal.atIdx : JVal → Nat → JVal
  | .arr l, i => l.getD i .null
  | _, _ => .null

/-- Numeric coercion as it happens when a `JVal` flows into arithmetic: a
number is itself, anything else (in particular `undefined` from a missing
index) behaves as NaN.  (A genuine JavaScript `null` would coerce to 0; no
code path modelled here feeds a literal `null` into arithmetic.) -/
def JVal.toNum : JVal → JsNum
  | .num n => n
  | _ => .nan

/-- The element list of an array value.  JavaScript `for..of` over a
non-iterable would throw; inside the renderer, bounds walker and hit-tester
this model treats that malformed case as an empty iteration instead — no
claim exercises it.  (The extractor, whose contract is about never throwing,
uses the faithful `jsIter` below.) -/
def JVal.items : JVal → List JVal
  | .arr l => l
  | _ => []

/-- JavaScript `a || b`. -/
noncomputable def JVal.jsOr (a b : JVal) : JVal := if a.truthy then a else b

/-- Faithful JavaScript `for..of`: iterating a non-array throws a TypeError,
modelled as `Except.error`.  (String iteration, which JavaScript would allow
character by character, is likewise out of scope and modelled as an error; no
claim exercises it.) -/
def jsIter : JVal → Except Unit (List JVal)
  | .arr l => .ok l
  | _ => .error ()

/-! ## The projector: `lonLatToMercator` -/

/-- The y formula of `lonLatToMercator` on a finite latitude, with its ideal
real semantics:
`y = (1 - log(tan(lat·π/180) + 1/cos(lat·π/180)) / π) / 2`.
At the cosine singularity the inner expression diverges, to `+∞` when
`sin > 0` (hence `y = -∞`) and to `0⁺` when `sin < 0` (hence `y = +∞`);
the logarithm of a negative number is NaN and `log 0 = -∞`. -/
noncomputable def mercYfin (lat : ℝ) : JsNum :=
  let θ := lat * Real.pi / 180
  let g := Real.tan θ + 1 / Real.cos θ
  if Real.cos θ = 0 then (if 0 < Real.sin θ then .negInf else .posInf)
  else if 0 < g then .fin ((1 - Real.log g / Real.pi) / 2)
  else if g = 0 then .posInf
  else .nan

/-- The y component of the projection on an arbitrary number: `Math.tan` and
`Math.cos` of an infinity or NaN are NaN, so the whole formula is NaN. -/
noncomputable def mercY : JsNum → JsNum
  | .fin lat => mercYfin lat
  | _ => .nan

/-- Source `lonLatToMercator`: `x = (lon + 180) / 360` and the Mercator y.
Returns the pair `(x, y)`. -/
noncomputable def lonLatToMercator (lon lat : JsNum) : JsNum × JsNum :=
  (jsDiv (jsAdd lon (.fin 180)) (.fin 360), mercY lat)

/-- The finite value of the x component on a finite longitude. -/
noncomputable def mercXval (lon : ℝ) : ℝ := (lon + 180) / 360

/-- The finite value of the y component on a latitude strictly between the
poles. -/
noncomputable def mercYval (lat : ℝ) : ℝ :=
  (1 - Real.log (Real.tan (lat * Real.pi / 180) +
      1 / Real.cos (lat * Real.pi / 180)) / Real.pi) / 2

/-! ## The extractor: `extractFeatures` -/

/-- The synthetic feature `{ type: "Feature", geometry: g, properties: {} }`
built by the extractor for geometry-collection members and bare geometries. -/
def syntheticFeature (g : JVal) : JVal :=
  .obj [("type", .str "Feature"), ("geometry", g), ("properties", .obj [])]

/-- Source `extractFeatures`, checked in source order: falsy input gives no
features; a FeatureCollection contributes its `features` array (defaulted to
empty when falsy); a Feature contributes itself; a GeometryCollection wraps
each member geometry in a synthetic feature; a bare geometry (truthy `type`
and `coordinates`) is wrapped in a synthetic feature; anything else gives no
features.  `Except.error` marks the only way the JavaScript can throw: a
`for..of` over a truthy non-iterable `features`/`geometries` property. -/
noncomputable def extractFeatures (geojson : JVal) : Except Unit (List JVal) :=
  if !geojson.truthy then .ok []
  else if (geojson.get "type").eqStr "FeatureCollection" then
    match jsIter ((geojson.get "features").jsOr (.arr [])) with
    | .ok fs => .ok fs
    | .error e => .error e
  else if (geojson.get "type").eqStr "Feature" then .ok [geojson]
  else if (geojson.get "type").eqStr "GeometryCollection" then
    match jsIter ((geojson.get "geometries").jsOr (.arr [])) with
    | .ok gs => .ok (gs.map syntheticFeature)
    | .error e => .error e
  else if (geojson.get "type").truthy && (geojson.get "coordinates").truthy then
    .ok [syntheticFeature geojson]
  else .ok []

/-- An internal feature as built by `buildInternalFeatures`: an identifier
(a JavaScript string or number) paired with the raw feature value. -/
structure IFeature where
  id : JVal
  feature : JVal

/-- Source `buildInternalFeatures` identifier assignment: with a caller
supplied identifier function the identifier is `getFeatureId(f, i)`,
otherwise it is the positional index `i`. -/
noncomputable def buildInternalFeatures
    (getFeatureId : Option (JVal → Nat → JVal)) (gj : JVal) :
    Except Unit (List IFeature) :=
  match extractFeatures gj with
  | .ok fs =>
      .ok (fs.enum.map (fun p =>
        { id := match getFeatureId with
                | some fn => fn p.2 p.1
                | none => .num (.fin p.1)
          feature := p.2 }))
  | .error e => .error e

/-! ## The bounds calculator: `getBoundsOfGeojson` -/

/-- The mutable bounds accumulator of `getBoundsOfGeojson`
(`minX/minY/maxX/maxY`), made explicit. -/
structure JBounds where
  minX : JsNum
  minY : JsNum
  maxX : JsNum
  maxY : JsNum

/-- The body of the coordinate-leaf case of `visitCoords`: fold one projected
point into the running min/max with `Math.min`/`Math.max`. -/
noncomputable def boundsUpdate (st : JBounds) (p : JsNum × JsNum) : JBounds :=
  ⟨jsMin st.minX p.1, jsMin st.minY p.2, jsMax st.maxX p.1, jsMax st.maxY p.2⟩

mutual
/-- Source `visitCoords`: a value whose first two elements are numbers is a
coordinate leaf and is projected and folded; otherwise every element is
visited recursively. -/
noncomputable def visitCoords : JVal → JBounds → JBounds
  | .arr (.num lon :: .num lat :: _), st =>
      boundsUpdate st (lonLatToMercator lon lat)
  | .arr cs, st => visitList cs st
  | _, st => st
/-- The `for (const c of coords)` loop of `visitCoords`. -/
noncomputable def visitList : List JVal → JBounds → JBounds
  | [], st => st
  | c :: cs, st => visitList cs (visitCoords c st)
end

mutual
/-- The projected coordinate leaves `visitCoords` folds, in visit order. -/
noncomputable def coordLeaves : JVal → List (JsNum × JsNum)
  | .arr (.num lon :: .num lat :: _) => [lonLatToMercator lon lat]
  | .arr cs => leavesList cs
  | _ => []
/-- The leaves of a list of coordinate values, in order. -/
noncomputable def leavesList : List JVal → List (JsNum × JsNum)
  | [] => []
  | c :: cs => coordLeaves c ++ leavesList cs
end

/-- The per-feature body of the bounds loop: skip a falsy geometry, dispatch
on the type tag (the six coordinate-bearing kinds all walk `coordinates`; a
GeometryCollection walks each member geometry), ignore unknown types. -/
noncomputable def visitFeature (st : JBounds) (f : JVal) : JBounds :=
  let geom := f.get "geometry"
  if !geom.truthy then st
  else
    let type := geom.get "type"
    let coordinates := geom.get "coordinates"
    if type.eqStr "Point" then visitCoords coordinates st
    else if type.eqStr "MultiPoint" || type.eqStr "LineString" then
      visitCoords coordinates st
    else if type.eqStr "MultiLineString" || type.eqStr "Polygon" then
      visitCoords coordinates st
    else if type.eqStr "MultiPolygon" then visitCoords coordinates st
    else if type.eqStr "GeometryCollection" then
      ((geom.get "geometries").jsOr (.arr [])).items.foldl
        (fun s g => visitCoords (g.get "coordinates") s) st
    else st

/-- The projected coordinate leaves contributed by one feature, in visit
order (mirrors the branch structure of `visitFeature`). -/
noncomputable def featureLeaves (f : JVal) : List (JsNum × JsNum) :=
  let geom := f.get "geometry"
  if !geom.truthy then []
  else
    let type := geom.get "type"
    let coordinates := geom.get "coordinates"
    if type.eqStr "Point" then coordLeaves coordinates
    else if type.eqStr "MultiPoint" || type.eqStr "LineString" then
      coordLeaves coordinates
    else if type.eqStr "MultiLineString" || type.eqStr "Polygon" then
      coordLeaves coordinates
    else if type.eqStr "MultiPolygon" then coordLeaves coordinates
    else if type.eqStr "GeometryCollection" then
      ((geom.get "geometries").jsOr (.arr [])).items.foldl
        (fun acc g => acc ++ coordLeaves (g.get "coordinates")) []
    else []

/-- Source `getBoundsOfGeojson`: extract the features, return `null` (here
`none`) when the feature list is empty, otherwise fold every visited leaf
into bounds started at `(∞, ∞, -∞, -∞)`.  Note that a non-empty feature list
with no coordinate leaves returns these initial values unchanged, not
`null`. -/
noncomputable def getBoundsOfGeojson (geojson : JVal) : Except Unit (Option JBounds) :=
  match extractFeatures geojson with
  | .error e => .error e
  | .ok features =>
      if features.length = 0 then .ok none
      else .ok (some (features.foldl visitFeature
          ⟨.posInf, .posInf, .negInf, .negInf⟩))

/-! ## The viewport and the fit algorithm -/

/-- The viewport state: a uniform scale and a 2D translation. -/
structure Viewport where
  scale : ℝ
  translateX : ℝ
  translateY : ℝ

/-- The viewport computation inside source `fitBounds`, on (finite) bounds
values.  The JavaScript `(maxX - minX) || 1e-6` keeps the difference unless
it is exactly zero (for real-valued fields neither NaN nor negative zero
arises), so it is modelled as a zero test, not as a max-clamp. -/
noncomputable def fitViewport (minX minY maxX maxY cssW cssH padding : ℝ) : Viewport :=
  let worldW := if maxX - minX = 0 then 1e-6 else maxX - minX
  let worldH := if maxY - minY = 0 then 1e-6 else maxY - minY
  let scaleX := (cssW - padding * 2) / worldW
  let scaleY := (cssH - padding * 2) / worldH
  let scale := min scaleX scaleY
  { scale := scale
    translateX := -minX * cssW * scale + padding + (cssW - (worldW * cssW * scale) - padding * 2) / 2
    translateY := -minY * cssH * scale + padding + (cssH - (worldH * cssH * scale) - padding * 2) / 2 }

/-- Source `mercatorToCanvas`: pixel = normalized · surfaceDim · scale +
translate, for each axis. -/
noncomputable def mercatorToCanvas (vp : Viewport) (xNorm yNorm : JsNum) (ctxW ctxH : ℝ) :
    JsNum × JsNum :=
  (jsAdd (jsMul (jsMul xNorm (.fin ctxW)) (.fin vp.scale)) (.fin vp.translateX),
   jsAdd (jsMul (jsMul yNorm (.fin ctxH)) (.fin vp.scale)) (.fin vp.translateY))

/-! ## Styles -/

/-- Point style from `src/types/index.ts`; all fields optional. -/
structure PointStyle where
  radius : Option ℝ := none
  fill : Option String := none
  stroke : Option String := none
  lineWidth : Option ℝ := none

/-- Line style from `src/types/index.ts`. -/
structure LineStyle where
  stroke : Option String := none
  lineWidth : Option ℝ := none
  lineDash : Option (List ℝ) := none

/-- Polygon style (`FillStyle`) from `src/types/index.ts`. -/
structure FillStyle where
  fill : Option String := none
  stroke : Option String := none
  lineWidth : Option ℝ := none

/-- The style bundle. -/
structure Styles where
  point : Option PointStyle := none
  line : Option LineStyle := none
  polygon : Option FillStyle := none

/-- The `defaultStyles` constant of the source. -/
def defaultStyles : Styles :=
  { point := some { radius := some 4, fill := some "#1976d2",
                    stroke := some "#fff", lineWidth := some 1 }
    line := some { stroke := some "#1976d2", lineWidth := some 2 }
    polygon := some { fill := some "rgba(25,118,210,0.2)",
                      stroke := some "#1976d2", lineWidth := some 1 } }

/-- JavaScript `v || d` for an optional number: `undefined` and `0` fall back
to the default. -/
noncomputable def orNum (v : Option ℝ) (d : ℝ) : ℝ :=
  match v with
  | some x => if x = 0 then d else x
  | none => d

/-- JavaScript truthiness of an optional string (`if (style.fill) ...`). -/
def strTruthy : Option String → Bool
  | some s => s != ""
  | none => false

/-! ## The renderer: `drawFeature` -/

/-- A draw call issued against the canvas context.  Pure style-property
assignments (`fillStyle`, `strokeStyle`, `lineWidth`, `setLineDash`) are not
recorded: they draw nothing and take no coordinates. -/
inductive DrawCall where
  | beginPath
  | arc (x y : JsNum) (r : ℝ)
  | moveTo (x y : JsNum)
  | lineTo (x y : JsNum)
  | fill
  | stroke

/-- Source `drawCoords` inside `drawFeature`: a structural coordinate pair is
projected and transformed to pixels — with no finiteness check — and anything
else yields `null`. -/
noncomputable def drawCoords (vp : Viewport) (ctxW ctxH : ℝ) : JVal → Option (JsNum × JsNum)
  | .arr (.num lon :: .num lat :: _) =>
      let p := lonLatToMercator lon lat
      some (mercatorToCanvas vp p.1 p.2 ctxW ctxH)
  | _ => none

/-- The draw calls of one point marker: `beginPath`, `arc`, then `fill` and
`stroke` when the respective style strings are truthy. -/
noncomputable def pointCalls (tPoint : PointStyle) (c : JsNum × JsNum) : List DrawCall :=
  [.beginPath, .arc c.1 c.2 (orNum tPoint.radius 3)] ++
  (if strTruthy tPoint.fill then [.fill] else []) ++
  (if strTruthy tPoint.stroke then [.stroke] else [])

/-- One step of path construction: a `null` coordinate is skipped, the first
valid coordinate issues `moveTo`, later ones issue `lineTo` (the Boolean is
the `started` flag). -/
noncomputable def pathStep (vp : Viewport) (ctxW ctxH : ℝ)
    (acc : List DrawCall × Bool) (coord : JVal) : List DrawCall × Bool :=
  match drawCoords vp ctxW ctxH coord with
  | none => acc
  | some c =>
      if acc.2 then (acc.1 ++ [.lineTo c.1 c.2], true)
      else (acc.1 ++ [.moveTo c.1 c.2], true)

/-- Source `drawFeature`: the sequence of draw calls issued for one internal
feature.  A falsy feature or geometry draws nothing; a LineString is a
single-member list of lines with the `started` flag reset per line; a Polygon
is a single-member list of polygons with the `started` flag shared across the
rings of one polygon. -/
noncomputable def drawFeature (styles : Styles) (vp : Viewport) (ctxW ctxH : ℝ)
    (f : IFeature) : List DrawCall :=
  if !f.feature.truthy then []
  else
    let geom := f.feature.get "geometry"
    if !geom.truthy then []
    else
      let tPoly := styles.polygon.getD {}
      let tPoint := styles.point.getD {}
      let type := geom.get "type"
      if type.eqStr "Point" then
        match drawCoords vp ctxW ctxH (geom.get "coordinates") with
        | none => []
        | some c => pointCalls tPoint c
      else if type.eqStr "MultiPoint" then
        (geom.get "coordinates").items.foldl (fun acc coord =>
          acc ++ match drawCoords vp ctxW ctxH coord with
                 | none => []
                 | some c => pointCalls tPoint c) []
      else if type.eqStr "LineString" || type.eqStr "MultiLineString" then
        let lines := if type.eqStr "LineString" then [geom.get "coordinates"]
                     else (geom.get "coordinates").items
        [DrawCall.beginPath] ++
          (lines.foldl (fun acc ring =>
            acc ++ (ring.items.foldl (pathStep vp ctxW ctxH) ([], false)).1) []) ++
          [DrawCall.stroke]
      else if type.eqStr "Polygon" || type.eqStr "MultiPolygon" then
        let polys := if type.eqStr "Polygon" then [geom.get "coordinates"]
                     else (geom.get "coordinates").items
        polys.foldl (fun acc poly =>
          acc ++ ([DrawCall.beginPath] ++
            (poly.items.foldl (fun acc2 ring =>
              ring.items.foldl (pathStep vp ctxW ctxH) acc2) ([], false)).1 ++
            (if strTruthy tPoly.fill then [DrawCall.fill] else []) ++
            (if strTruthy tPoly.stroke then [DrawCall.stroke] else []))) []
      else []

/-! ## The hit-tester -/

/-- Source `distanceToSegment`: when both deltas are exactly zero the plain
point distance to the first endpoint is returned (no division happens);
otherwise the projection parameter is clamped to `[0, 1]` and the distance to
the clamped foot point is returned. -/
noncomputable def distanceToSegment (px py : ℝ) (x1 y1 x2 y2 : JsNum) : JsNum :=
  let dx := jsSub x2 x1
  let dy := jsSub y2 y1
  if dx.isZero && dy.isZero then
    jsHypot (jsSub (.fin px) x1) (jsSub (.fin py) y1)
  else
    let t := jsDiv (jsAdd (jsMul (jsSub (.fin px) x1) dx) (jsMul (jsSub (.fin py) y1) dy))
                   (jsAdd (jsMul dx dx) (jsMul dy dy))
    let tt := jsMax (.fin 0) (jsMin (.fin 1) t)
    let cx := jsAdd x1 (jsMul tt dx)
    let cy := jsAdd y1 (jsMul tt dy)
    jsHypot (jsSub (.fin px) cx) (jsSub (.fin py) cy)

/-- One iteration of the ray-casting loop of `pointInPolygon`, at vertex
index `i` with predecessor index `j` (wrapping to the last vertex at
`i = 0`). -/
noncomputable def pipStep (x y : ℝ) (poly : List (JsNum × JsNum)) (inside : Bool) (i : Nat) :
    Bool :=
  let j := if i = 0 then poly.length - 1 else i - 1
  let a := poly.getD i (.nan, .nan)
  let b := poly.getD j (.nan, .nan)
  let intersect := (jsLt (.fin y) a.2 != jsLt (.fin y) b.2) &&
    jsLt (.fin x) (jsAdd (jsDiv (jsMul (jsSub b.1 a.1) (jsSub (.fin y) a.2))
                                (jsAdd (jsSub b.2 a.2) (.fin 0.0000001))) a.1)
  if intersect then !inside else inside

/-- Source `pointInPolygon` (ray casting over a pixel-space ring). -/
noncomputable def pointInPolygon (x y : ℝ) (poly : List (JsNum × JsNum)) : Bool :=
  (List.range poly.length).foldl (pipStep x y poly) false

/-- The per-feature test of source `hitTest`: a Point matches within
`radius + 4` pixels of its transformed center, a Polygon or MultiPolygon by
ray casting against each transformed outer ring, a LineString or
MultiLineString when some consecutive vertex pair is within
`lineWidth + 6` pixels by `distanceToSegment`; other types never match. -/
noncomputable def hitMatch (styles : Styles) (vp : Viewport) (cssW cssH x y : ℝ)
    (f : IFeature) : Bool :=
  let geom := f.feature.get "geometry"
  if !geom.truthy then false
  else
    let type := geom.get "type"
    if type.eqStr "Point" then
      let coords := geom.get "coordinates"
      let p := lonLatToMercator (coords.atIdx 0).toNum (coords.atIdx 1).toNum
      let c := mercatorToCanvas vp p.1 p.2 cssW cssH
      let r := orNum (styles.point.bind (fun s => s.radius)) 4 + 4
      jsLe (jsHypot (jsSub c.1 (.fin x)) (jsSub c.2 (.fin y))) (.fin r)
    else if type.eqStr "Polygon" || type.eqStr "MultiPolygon" then
      let polys := if type.eqStr "Polygon" then [geom.get "coordinates"]
                   else (geom.get "coordinates").items
      polys.any (fun poly =>
        let ring := poly.atIdx 0
        let ringPx := ring.items.map (fun coord =>
          let p := lonLatToMercator (coord.atIdx 0).toNum (coord.atIdx 1).toNum
          mercatorToCanvas vp p.1 p.2 cssW cssH)
        pointInPolygon x y ringPx)
    else if type.eqStr "LineString" || type.eqStr "MultiLineString" then
      let lines := if type.eqStr "LineString" then [geom.get "coordinates"]
                   else (geom.get "coordinates").items
      let tolerance := orNum (styles.line.bind (fun s => s.lineWidth)) 2 + 6
      lines.any (fun line =>
        let vs := line.items
        (vs.zip vs.tail).any (fun ab =>
          let pA := lonLatToMercator ((ab.1.atIdx 0).toNum) ((ab.1.atIdx 1).toNum)
          let pB := lonLatToMercator ((ab.2.atIdx 0).toNum) ((ab.2.atIdx 1).toNum)
          let ca := mercatorToCanvas vp pA.1 pA.2 cssW cssH
          let cb := mercatorToCanvas vp pB.1 pB.2 cssW cssH
          jsLe (distanceToSegment x y ca.1 ca.2 cb.1 cb.2) (.fin tolerance)))
    else false

/-- Source `hitTest`: iterate the internal feature list backwards (so the
topmost drawn feature is tested first) and return the first match, `null`
(here `none`) when nothing matches.  The backwards loop with early return is
exactly the first match over the reversed list. -/
noncomputable def hitTest (styles : Styles) (vp : Viewport) (cssW cssH : ℝ)
    (features : List IFeature) (x y : ℝ) : Option IFeature :=
  features.reverse.find? (hitMatch styles vp cssW cssH x y)

/-! ## Computation lemmas for the number model -/

@[simp] theorem jsAdd_fin (x y : ℝ) : jsAdd (.fin x) (.fin y) = .fin (x + y) := rfl

@[simp] theorem jsSub_fin (x y : ℝ) : jsSub (.fin x) (.fin y) = .fin (x - y) := rfl

@[simp] theorem jsMul_fin (x y : ℝ) : jsMul (.fin x) (.fin y) = .fin (x * y) := rfl

@[simp] theorem jsMin_fin (x y : ℝ) : jsMin (.fin x) (.fin y) = .fin (min x y) := rfl

@[simp] theorem jsMax_fin (x y : ℝ) : jsMax (.fin x) (.fin y) = .fin (max x y) := rfl

@[simp] theorem jsHypot_fin (x y : ℝ) : jsHypot (.fin x) (.fin y) = .fin (realHypot x y) := rfl

@[simp] theorem jsLe_fin (x y : ℝ) : jsLe (.fin x) (.fin y) = decide (x ≤ y) := rfl

@[simp] theorem jsAdd_posInf_fin (y : ℝ) : jsAdd .posInf (.fin y) = .posInf := rfl

@[simp] theorem jsMin_posInf (b : JsNum) (hb : b ≠ .nan) : jsMin .posInf b = b := by
  cases b <;> simp [jsMin] at hb ⊢

@[simp] theorem jsMax_negInf (b : JsNum) (hb : b ≠ .nan) : jsMax .negInf b = b := by
  cases b <;> simp [jsMax] at hb ⊢

@[simp] theorem jsMin_fin_negInf (x : ℝ) : jsMin (.fin x) .negInf = .negInf := rfl

@[simp] theorem jsMax_fin_negInf (x : ℝ) : jsMax (.fin x) .negInf = .fin x := rfl

@[simp] theorem jsMin_fin_posInf (x : ℝ) : jsMin (.fin x) .posInf = .fin x := rfl

@[simp] theorem jsMax_fin_posInf (x : ℝ) : jsMax (.fin x) .posInf = .posInf := rfl

theorem jsDiv_fin (x y : ℝ) (hy : y ≠ 0) : jsDiv (.fin x) (.fin y) = .fin (x / y) := by
  simp [jsDiv, hy]

theorem jsDiv_posInf_fin (y : ℝ) (hy : ¬ y < 0) : jsDiv .posInf (.fin y) = .posInf := by
  simp [jsDiv, hy]

theorem jsMul_posInf_fin (y : ℝ) (hy : 0 < y) : jsMul .posInf (.fin y) = .posInf := by
  simp [jsMul, hy]

/-! ## Evaluating the projector -/

/-- On finite inputs the x component is the finite value `(lon + 180) / 360`. -/
theorem lonLatToMercator_fin (lon lat : ℝ) :
    lonLatToMercator (.fin lon) (.fin lat) = (.fin (mercXval lon), mercYfin lat) := by
  simp [lonLatToMercator, mercY, mercXval, jsDiv_fin _ _ (by norm_num : (360 : ℝ) ≠ 0)]

/-- The projection of the origin is the center of the normalized square. -/
theorem lonLatToMercator_origin :
    lonLatToMercator (.fin 0) (.fin 0) = (.fin (1 / 2), .fin (1 / 2)) := by
  rw [lonLatToMercator_fin]
  have h0 : mercYfin 0 = .fin (1 / 2) := by
    unfold mercYfin
    norm_num [Real.tan_zero, Real.log_one]
  rw [h0, mercXval]
  norm_num

/-- At latitude 90 the projection formula diverges to `-∞` (the cosine
vanishes and the inner expression grows without bound). -/
theorem mercYfin_ninety : mercYfin 90 = .negInf := by
  unfold mercYfin
  have h : (90 : ℝ) * Real.pi / 180 = Real.pi / 2 := by ring
  rw [h]
  simp [Real.cos_pi_div_two, Real.sin_pi_div_two]

/-- A point with an infinite longitude projects to an infinite x. -/
theorem lonLatToMercator_posInf (lat : ℝ) :
    lonLatToMercator .posInf (.fin lat) = (.posInf, mercYfin lat) := by
  simp [lonLatToMercator, mercY, jsAdd, jsDiv_posInf_fin _ (by norm_num : ¬ (360 : ℝ) < 0)]

/-- The projection of latitude 0 lands on the horizontal midline. -/
theorem mercYfin_zero : mercYfin 0 = .fin (1 / 2) := by
  unfold mercYfin
  norm_num [Real.tan_zero, Real.log_one]

/-! ## Concrete inputs used by the claims -/

/-- The bare Point geometry input of the extraction scenario. -/
def barePoint : JVal :=
  .obj [("type", .str "Point"), ("coordinates", .arr [.num (.fin 0), .num (.fin 0)])]

/-- A Feature wrapping a Point geometry at the given coordinates. -/
def ptFeature (lon lat : JsNum) : JVal :=
  .obj [("type", .str "Feature"),
        ("geometry", .obj [("type", .str "Point"),
                           ("coordinates", .arr [.num lon, .num lat])])]

/-- The initial viewport state of the component (`scale 1`, no translation). -/
def vpId : Viewport := ⟨1, 0, 0⟩

/-- A FeatureCollection with one finite point and one point whose projection
is non-finite (infinite longitude, polar latitude). -/
def fcNonFinite : JVal :=
  .obj [("type", .str "FeatureCollection"),
        ("features", .arr [ptFeature (.fin 0) (.fin 0), ptFeature .posInf (.fin 90)])]

/-- A Feature with no geometry: it is extracted but contributes no
coordinate leaf. -/
def featNoGeom : JVal := .obj [("type", .str "Feature")]

/-- A FeatureCollection whose single feature has no geometry, so zero
coordinate leaves are visited. -/
def fcNoLeaves : JVal :=
  .obj [("type", .str "FeatureCollection"), ("features", .arr [featNoGeom])]

/-- A FeatureCollection whose single point has a NaN longitude: the leaf is
visited (NaN has numeric type) but its projection is NaN. -/
def fcNanPoint : JVal :=
  .obj [("type", .str "FeatureCollection"),
        ("features", .arr [ptFeature .nan (.fin 0)])]

/-! ## C7: bare geometry extraction -/

/-- C7: extracting the bare geometry `{type: "Point", coordinates: [0,0]}`
yields exactly one synthetic Feature wrapping that geometry with empty
properties, and with no caller-supplied identifier function its identifier is
the positional index 0. -/
theorem bare_geometry_single_feature :
    buildInternalFeatures none barePoint =
      .ok [{ id := .num (.fin 0), feature := syntheticFeature barePoint }] ∧
    (syntheticFeature barePoint).get "properties" = .obj [] ∧
    (syntheticFeature barePoint).get "geometry" = barePoint := by
  refine ⟨?_, rfl, rfl⟩
  have hex : extractFeatures barePoint = .ok [syntheticFeature barePoint] := rfl
  simp [buildInternalFeatures, hex, List.enum]

/-! ## C8: malformed input extracts to the empty list, never throws -/

/-- C8: for every input value that is null or is not a FeatureCollection,
Feature, GeometryCollection, or bare geometry object, `extractFeatures`
returns the empty sequence and never throws (the result is an `ok`, never an
`error`). -/
theorem extract_malformed_empty (v : JVal)
    (hfc : (v.get "type").eqStr "FeatureCollection" = false)
    (hf : (v.get "type").eqStr "Feature" = false)
    (hgc : (v.get "type").eqStr "GeometryCollection" = false)
    (hbare : ((v.get "type").truthy && (v.get "coordinates").truthy) = false) :
    extractFeatures v = .ok [] := by
  unfold extractFeatures
  cases h : v.truthy <;> simp [h, hfc, hf, hgc, hbare]

/-- Witness for C8 at the concrete malformed input `[]` (an array is truthy
but carries no type tag). -/
theorem extract_malformed_empty_witness : extractFeatures (.arr []) = .ok [] :=
  extract_malformed_empty (.arr []) rfl rfl rfl rfl

/-! ## C4: the renderer does not skip non-finite projected coordinates -/

/-- C4 (failing-input evaluation): drawing the Point feature with longitude
`Infinity` issues an `arc` draw call whose x pixel coordinate is non-finite —
the coordinate is not skipped, contradicting the claim. -/
theorem drawFeature_nonfinite_arc :
    drawFeature defaultStyles vpId 100 100
        { id := .num (.fin 0), feature := ptFeature .posInf (.fin 0) } =
      [.beginPath, .arc .posInf (.fin 50) 4, .fill, .stroke] ∧
    JsNum.isFinite .posInf = false := by
  refine ⟨?_, rfl⟩
  have h1 : lonLatToMercator .posInf (.fin 0) = (.posInf, .fin (1 / 2)) := by
    rw [lonLatToMercator_posInf, mercYfin_zero]
  have hm100 : jsMul .posInf (.fin 100) = .posInf := jsMul_posInf_fin 100 (by norm_num)
  have hm1 : jsMul .posInf (.fin 1) = .posInf := jsMul_posInf_fin 1 (by norm_num)
  simp +decide [drawFeature, ptFeature, JVal.get, JVal.truthy, JVal.eqStr, drawCoords, h1,
    mercatorToCanvas, vpId, defaultStyles, pointCalls, orNum, strTruthy, hm100, hm1, jsAdd]
  norm_num

/-! ## C1: the bounds fold does not exclude non-finite projections -/

/-- C1 (failing-input evaluation): folding the FeatureCollection that
contains a finite point and a point whose projection is non-finite produces
bounds with an infinite `minY` and `maxX` — the non-finite projection is
folded, not excluded, contradicting the claim. -/
theorem getBounds_folds_nonfinite :
    getBoundsOfGeojson fcNonFinite =
      .ok (some ⟨.fin (1 / 2), .negInf, .posInf, .fin (1 / 2)⟩) ∧
    lonLatToMercator (.fin 0) (.fin 0) = (.fin (1 / 2), .fin (1 / 2)) ∧
    JsNum.isFinite .negInf = false ∧ JsNum.isFinite .posInf = false := by
  refine ⟨?_, lonLatToMercator_origin, rfl, rfl⟩
  have hex : extractFeatures fcNonFinite =
      .ok [ptFeature (.fin 0) (.fin 0), ptFeature .posInf (.fin 90)] := rfl
  have h90 : lonLatToMercator .posInf (.fin 90) = (.posInf, .negInf) := by
    rw [lonLatToMercator_posInf, mercYfin_ninety]
  simp [getBoundsOfGeojson, hex, visitFeature, ptFeature, JVal.get, JVal.truthy,
    JVal.eqStr, visitCoords, boundsUpdate, lonLatToMercator_origin, h90]

/-! ## C2 counterexample: bounds are not absent when zero leaves are visited -/

/-- C2 counterexample: a FeatureCollection with one geometry-less feature has
zero coordinate leaves, yet `getBoundsOfGeojson` returns the untouched
initial accumulator `(∞, ∞, -∞, -∞)` instead of the absent result the claim
requires; and a FeatureCollection whose single visited leaf projects to NaN
yields bounds on which the claimed inequality `minX ≤ maxX` fails in the
JavaScript comparison. -/
theorem getBounds_no_leaves_not_absent :
    extractFeatures fcNoLeaves = .ok [featNoGeom] ∧
    featureLeaves featNoGeom = [] ∧
    getBoundsOfGeojson fcNoLeaves = .ok (some ⟨.posInf, .posInf, .negInf, .negInf⟩) ∧
    getBoundsOfGeojson fcNanPoint = .ok (some ⟨.nan, .fin (1 / 2), .nan, .fin (1 / 2)⟩) ∧
    jsLe JsNum.nan JsNum.nan = false := by
  refine ⟨rfl, rfl, rfl, ?_, rfl⟩
  have hnan : lonLatToMercator .nan (.fin 0) = (.nan, .fin (1 / 2)) := by
    simp [lonLatToMercator, mercY, mercYfin_zero, jsAdd, jsDiv]
  have hex : extractFeatures fcNanPoint = .ok [ptFeature .nan (.fin 0)] := rfl
  simp [getBoundsOfGeojson, hex, visitFeature, ptFeature, JVal.get, JVal.truthy,
    JVal.eqStr, visitCoords, boundsUpdate, hnan, jsMin, jsMax]

/-! ## C3: the fit algorithm -/

/-- Modelled from the spec text of the fit algorithm, with its max-clamp
`worldDim = max(extent, ε)` replaced by the fallback the code implements —
the extent itself unless it is exactly zero, in which case `1e-6` — the
single amendment forced by the counterexample below.  The scale and the
translations are written exactly as the spec states them. -/
noncomputable def fitViewportSpec (minX minY maxX maxY surfaceW surfaceH padding : ℝ) :
    Viewport :=
  let worldW := if maxX - minX = 0 then 1e-6 else maxX - minX
  let worldH := if maxY - minY = 0 then 1e-6 else maxY - minY
  let scale := min ((surfaceW - 2 * padding) / worldW) ((surfaceH - 2 * padding) / worldH)
  { scale := scale
    translateX := -minX * surfaceW * scale + padding +
      (surfaceW - worldW * surfaceW * scale - 2 * padding) / 2
    translateY := -minY * surfaceH * scale + padding +
      (surfaceH - worldH * surfaceH * scale - 2 * padding) / 2 }

/-- C3 counterexample: there is no single positive ε for which the scale
computed by the code agrees with the claimed `max(extent, ε)` formulas on
both a fully degenerate bounds (where the code falls back to `1e-6`, forcing
`ε = 1e-6`) and a bounds of tiny positive extent `1e-7` (where the code keeps
`1e-7` but `max(1e-7, 1e-6)` would clamp). -/
theorem fitViewport_not_max_clamp :
    ¬ ∃ ε : ℝ, 0 < ε ∧
      (fitViewport 0 0 0 0 100 100 0).scale =
        min ((100 - 2 * 0) / max (0 - 0) ε) ((100 - 2 * 0) / max (0 - 0) ε) ∧
      (fitViewport 0 0 (1e-7) (1e-7) 100 100 0).scale =
        min ((100 - 2 * 0) / max ((1e-7) - 0) ε) ((100 - 2 * 0) / max ((1e-7) - 0) ε) := by
  rintro ⟨ε, hε, h1, h2⟩
  have s1 : (fitViewport 0 0 0 0 100 100 0).scale = 1e8 := by
    norm_num [fitViewport]
  have s2 : (fitViewport 0 0 (1e-7) (1e-7) 100 100 0).scale = 1e9 := by
    norm_num [fitViewport]
  rw [s1, show ((0:ℝ) - 0) = 0 from by ring, max_eq_right hε.le] at h1
  norm_num at h1
  have hne : ε ≠ 0 := ne_of_gt hε
  have hε6 : ε = 1e-6 := by
    field_simp at h1
    linarith
  subst hε6
  rw [s2, show ((1e-7:ℝ) - 0) = 1e-7 from by norm_num,
    max_eq_right (by norm_num : (1e-7:ℝ) ≤ 1e-6)] at h2
  norm_num at h2

/-- C3 amended: the fit algorithm computes `worldW`/`worldH` as the bounds
extent with a `1e-6` fallback used exactly when the extent is zero (not as a
max-clamp), and the scale and translations exactly as the claim states them:
the code viewport coincides with the spec-side formulas on every input. -/
theorem fitViewport_matches_spec (minX minY maxX maxY w h p : ℝ) :
    fitViewport minX minY maxX maxY w h p = fitViewportSpec minX minY maxX maxY w h p := by
  simp only [fitViewport, fitViewportSpec, Viewport.mk.injEq]
  refine ⟨?_, ?_, ?_⟩ <;> ring_nf

/-! ## C2 amended: the bounds fold as a fold over the visited leaves -/

/-- The coordinate walk is the fold of its leaf list over the bounds
accumulator (joint mutual induction with `visitList`). -/
theorem visitCoords_eq_fold (c : JVal) (st : JBounds) :
    visitCoords c st = (coordLeaves c).foldl boundsUpdate st := by
  refine visitCoords.induct
    (fun c st => visitCoords c st = (coordLeaves c).foldl boundsUpdate st)
    (fun cs st => visitList cs st = (leavesList cs).foldl boundsUpdate st)
    ?_ ?_ ?_ ?_ ?_ c st
  · intro lon lat tail st
    rfl
  · intro cs st hne ih
    rcases cs with _ | ⟨c0, cs0⟩
    · exact ih
    · rcases c0 with _ | b | n | s | l | o
      case num =>
        rcases cs0 with _ | ⟨c1, cs1⟩
        · exact ih
        · rcases c1 with _ | b1 | n1 | s1 | l1 | o1
          case num => exact absurd rfl (hne n n1 cs1)
          all_goals exact ih
      all_goals exact ih
  · intro t st h1 h2
    rcases t with _ | b | n | s | l | o
    case arr => exact absurd rfl (h2 l)
    all_goals rfl
  · intro st
    rfl
  · intro c cs st ih1 ih2
    show visitList cs (visitCoords c st) =
      ((coordLeaves c ++ leavesList cs).foldl boundsUpdate st)
    rw [List.foldl_append, ← ih1, ih2]

/-- The list walk is the fold of its leaf list. -/
theorem visitList_eq_fold (cs : List JVal) (st : JBounds) :
    visitList cs st = (leavesList cs).foldl boundsUpdate st := by
  induction cs generalizing st with
  | nil => rfl
  | cons c cs ih =>
      show visitList cs (visitCoords c st) =
        ((coordLeaves c ++ leavesList cs).foldl boundsUpdate st)
      rw [List.foldl_append, ← visitCoords_eq_fold, ih]

/-- Accumulator normalization for a fold that appends leaf lists. -/
theorem foldl_append_acc (L : JVal → List (JsNum × JsNum)) (gs : List JVal) :
    ∀ acc : List (JsNum × JsNum),
      gs.foldl (fun a g => a ++ L g) acc = acc ++ gs.foldl (fun a g => a ++ L g) [] := by
  induction gs with
  | nil => intro acc; simp
  | cons g gs ih =>
      intro acc
      simp only [List.foldl_cons, List.nil_append]
      rw [ih (acc ++ L g), ih (L g), List.append_assoc]

/-- The GeometryCollection walk of the bounds loop is the fold of its
concatenated member leaf lists. -/
theorem gcFold_eq_fold (gs : List JVal) (st : JBounds) :
    gs.foldl (fun s g => visitCoords (g.get "coordinates") s) st =
      (gs.foldl (fun acc g => acc ++ coordLeaves (g.get "coordinates")) []).foldl
        boundsUpdate st := by
  induction gs generalizing st with
  | nil => rfl
  | cons g gs ih =>
      simp only [List.foldl_cons, List.nil_append]
      rw [foldl_append_acc (fun g => coordLeaves (g.get "coordinates")) gs,
        List.foldl_append, ← visitCoords_eq_fold, ih]

/-- The per-feature bounds walk is the fold of the feature leaf list. -/
theorem visitFeature_eq_fold (st : JBounds) (f : JVal) :
    visitFeature st f = (featureLeaves f).foldl boundsUpdate st := by
  simp only [visitFeature, featureLeaves]
  split_ifs <;>
    first
    | rfl
    | exact visitCoords_eq_fold _ _
    | exact gcFold_eq_fold _ _

/-- All projected leaves visited over a feature list, in visit order. -/
noncomputable def allLeaves (fs : List JVal) : List (JsNum × JsNum) :=
  (fs.map featureLeaves).flatten

/-- The whole bounds loop is the fold of all visited leaves. -/
theorem boundsFold_eq_fold (fs : List JVal) (st : JBounds) :
    fs.foldl visitFeature st = (allLeaves fs).foldl boundsUpdate st := by
  induction fs generalizing st with
  | nil => rfl
  | cons f fs ih =>
      have hsplit : allLeaves (f :: fs) = featureLeaves f ++ allLeaves fs := by
        simp [allLeaves]
      rw [List.foldl_cons, hsplit, List.foldl_append, visitFeature_eq_fold, ih]

/-- On non-NaN numbers the JavaScript `<=` agrees with the extended-real
order. -/
theorem jsLe_iff_toE (a b : JsNum) (ha : a ≠ .nan) (hb : b ≠ .nan) :
    jsLe a b = true ↔ a.toE ≤ b.toE := by
  cases a <;> cases b <;> simp_all [jsLe, JsNum.toE]

/-- On non-NaN numbers `Math.min` is non-NaN and computes the extended-real
minimum. -/
theorem jsMin_toE (a b : JsNum) (ha : a ≠ .nan) (hb : b ≠ .nan) :
    jsMin a b ≠ .nan ∧ (jsMin a b).toE = min a.toE b.toE := by
  cases a <;> cases b <;>
    simp_all [jsMin, JsNum.toE, min_eq_left, min_eq_right, bot_le, le_top]
  all_goals exact EReal.coe_strictMono.monotone.map_min

/-- On non-NaN numbers `Math.max` is non-NaN and computes the extended-real
maximum. -/
theorem jsMax_toE (a b : JsNum) (ha : a ≠ .nan) (hb : b ≠ .nan) :
    jsMax a b ≠ .nan ∧ (jsMax a b).toE = max a.toE b.toE := by
  cases a <;> cases b <;>
    simp_all [jsMax, JsNum.toE, max_eq_left, max_eq_right, bot_le, le_top]
  all_goals exact EReal.coe_strictMono.monotone.map_max

/-- A bounds state with no NaN field. -/
def NoNaNB (st : JBounds) : Prop :=
  st.minX ≠ .nan ∧ st.minY ≠ .nan ∧ st.maxX ≠ .nan ∧ st.maxY ≠ .nan

/-- A bounds state whose minima are at most its maxima in the JavaScript
comparison. -/
def OrderedB (st : JBounds) : Prop :=
  jsLe st.minX st.maxX = true ∧ jsLe st.minY st.maxY = true

/-- Folding one non-NaN projected leaf keeps the accumulator NaN-free and
makes it ordered. -/
theorem boundsUpdate_noNaN_ordered (st : JBounds) (p : JsNum × JsNum)
    (hst : NoNaNB st) (hp1 : p.1 ≠ .nan) (hp2 : p.2 ≠ .nan) :
    NoNaNB (boundsUpdate st p) ∧ OrderedB (boundsUpdate st p) := by
  obtain ⟨h1, h2, h3, h4⟩ := hst
  have m1 := jsMin_toE st.minX p.1 h1 hp1
  have m2 := jsMin_toE st.minY p.2 h2 hp2
  have M1 := jsMax_toE st.maxX p.1 h3 hp1
  have M2 := jsMax_toE st.maxY p.2 h4 hp2
  refine ⟨⟨m1.1, m2.1, M1.1, M2.1⟩, ?_, ?_⟩
  · show jsLe (jsMin st.minX p.1) (jsMax st.maxX p.1) = true
    rw [jsLe_iff_toE _ _ m1.1 M1.1, m1.2, M1.2]
    exact le_trans (min_le_right _ _) (le_max_right _ _)
  · show jsLe (jsMin st.minY p.2) (jsMax st.maxY p.2) = true
    rw [jsLe_iff_toE _ _ m2.1 M2.1, m2.2, M2.2]
    exact le_trans (min_le_right _ _) (le_max_right _ _)

/-- Folding a non-empty list of non-NaN projected leaves yields ordered
bounds. -/
theorem foldl_boundsUpdate_ordered (L : List (JsNum × JsNum)) (st : JBounds)
    (hst : NoNaNB st) (hL : ∀ p ∈ L, p.1 ≠ .nan ∧ p.2 ≠ .nan) :
    NoNaNB (L.foldl boundsUpdate st) ∧ (L ≠ [] → OrderedB (L.foldl boundsUpdate st)) := by
  induction L generalizing st with
  | nil => exact ⟨hst, fun h => absurd rfl h⟩
  | cons p L ih =>
      have hp := hL p (List.mem_cons_self _ _)
      have hup := boundsUpdate_noNaN_ordered st p hst hp.1 hp.2
      have ihh := ih (boundsUpdate st p) hup.1 (fun q hq => hL q (List.mem_cons_of_mem _ hq))
      simp only [List.foldl_cons]
      refine ⟨ihh.1, fun _ => ?_⟩
      rcases L with _ | ⟨q, L2⟩
      · exact hup.2
      · exact ihh.2 (by simp)

/-- C2 amended: the bounds result is absent exactly when zero features were
extracted (not when zero coordinate leaves were visited), and whenever at
least one coordinate leaf is visited and no visited leaf projects to NaN the
returned bounds satisfy minX ≤ maxX and minY ≤ maxY in the JavaScript
comparison. -/
theorem getBounds_absent_iff_and_ordered (v : JVal) (fs : List JVal)
    (hex : extractFeatures v = .ok fs) :
    (getBoundsOfGeojson v = .ok none ↔ fs = []) ∧
    (∀ b, getBoundsOfGeojson v = .ok (some b) →
      allLeaves fs ≠ [] →
      (∀ p ∈ allLeaves fs, p.1 ≠ JsNum.nan ∧ p.2 ≠ JsNum.nan) →
      jsLe b.minX b.maxX = true ∧ jsLe b.minY b.maxY = true) := by
  constructor
  · rcases fs with _ | ⟨f, fs⟩ <;> simp [getBoundsOfGeojson, hex]
  · intro b hb hne hnn
    rcases fs with _ | ⟨f, fs'⟩
    · simp [getBoundsOfGeojson, hex] at hb
    · have hb' : (f :: fs').foldl visitFeature ⟨.posInf, .posInf, .negInf, .negInf⟩ = b := by
        simpa [getBoundsOfGeojson, hex] using hb
      rw [← hb', boundsFold_eq_fold]
      exact (foldl_boundsUpdate_ordered (allLeaves (f :: fs')) _
        ⟨by simp, by simp, by simp, by simp⟩ hnn).2 hne

/-- A FeatureCollection with a single finite point, for the C2 witness. -/
def fcOnePoint : JVal :=
  .obj [("type", .str "FeatureCollection"),
        ("features", .arr [ptFeature (.fin 0) (.fin 0)])]

/-- Witness for C2 amended at a concrete one-point FeatureCollection. -/
theorem getBounds_absent_iff_and_ordered_witness :
    jsLe (JsNum.fin (1 / 2)) (JsNum.fin (1 / 2)) = true ∧
    jsLe (JsNum.fin (1 / 2)) (JsNum.fin (1 / 2)) = true := by
  have hex : extractFeatures fcOnePoint = .ok [ptFeature (.fin 0) (.fin 0)] := rfl
  have hb : getBoundsOfGeojson fcOnePoint =
      .ok (some ⟨.fin (1 / 2), .fin (1 / 2), .fin (1 / 2), .fin (1 / 2)⟩) := by
    simp [getBoundsOfGeojson, hex, visitFeature, ptFeature, JVal.get, JVal.truthy,
      JVal.eqStr, visitCoords, boundsUpdate, lonLatToMercator_origin]
  have hleaves : allLeaves [ptFeature (.fin 0) (.fin 0)] = [(.fin (1 / 2), .fin (1 / 2))] := by
    simp [allLeaves, featureLeaves, ptFeature, JVal.get, JVal.truthy, JVal.eqStr,
      coordLeaves, lonLatToMercator_origin]
  exact (getBounds_absent_iff_and_ordered fcOnePoint [ptFeature (.fin 0) (.fin 0)] hex).2
    ⟨.fin (1 / 2), .fin (1 / 2), .fin (1 / 2), .fin (1 / 2)⟩ hb
    (by rw [hleaves]; simp) (by rw [hleaves]; simp)

/-! ## C10: `distanceToSegment` computes the distance to the segment -/

/-- The real value computed by `distanceToSegment` on finite inputs,
mirroring its branch structure. -/
noncomputable def segDistVal (px py x1 y1 x2 y2 : ℝ) : ℝ :=
  let dx := x2 - x1
  let dy := y2 - y1
  if dx = 0 ∧ dy = 0 then realHypot (px - x1) (py - y1)
  else
    let t := ((px - x1) * dx + (py - y1) * dy) / (dx * dx + dy * dy)
    let tt := max 0 (min 1 t)
    realHypot (px - (x1 + tt * dx)) (py - (y1 + tt * dy))

/-- On finite endpoints `distanceToSegment` computes the finite value
`segDistVal`. -/
theorem distanceToSegment_fin (px py x1 y1 x2 y2 : ℝ) :
    distanceToSegment px py (.fin x1) (.fin y1) (.fin x2) (.fin y2) =
      .fin (segDistVal px py x1 y1 x2 y2) := by
  by_cases h : (x2 - x1 = 0 ∧ y2 - y1 = 0)
  · simp [distanceToSegment, segDistVal, JsNum.isZero, h.1, h.2]
  · have hA : x2 - x1 ≠ 0 ∨ y2 - y1 ≠ 0 := by tauto
    have hApos : 0 < (x2 - x1) * (x2 - x1) + (y2 - y1) * (y2 - y1) := by
      rcases hA with h1 | h1
      · linarith [mul_self_pos.mpr h1, mul_self_nonneg (y2 - y1)]
      · linarith [mul_self_pos.mpr h1, mul_self_nonneg (x2 - x1)]
    simp only [distanceToSegment, segDistVal, jsSub_fin, jsMul_fin, jsAdd_fin,
      jsDiv_fin _ _ (ne_of_gt hApos), jsMin_fin, jsMax_fin, jsHypot_fin, JsNum.isZero]
    rw [if_neg, if_neg h]
    intro hcontra
    rcases Bool.and_eq_true _ _ |>.mp hcontra with ⟨hx, hy⟩
    exact h ⟨of_decide_eq_true hx, of_decide_eq_true hy⟩

/-- The clamped minimizer of the quadratic `A s² - 2 B s` over `[0, 1]`. -/
theorem quad_min_clamped (A B t : ℝ) (hA : 0 < A) (ht0 : 0 ≤ t) (ht1 : t ≤ 1) :
    A * (max 0 (min 1 (B / A))) ^ 2 - 2 * B * (max 0 (min 1 (B / A))) ≤
      A * t ^ 2 - 2 * B * t := by
  rcases le_or_lt (B / A) 0 with hc | hc
  · rw [min_eq_right (le_trans hc zero_le_one), max_eq_left hc]
    have hB : B ≤ 0 := by
      by_contra hB
      push_neg at hB
      exact absurd (div_pos hB hA) (not_lt.mpr hc)
    nlinarith [mul_nonneg (mul_nonneg hA.le ht0) ht0, mul_nonneg (neg_nonneg.mpr hB) ht0]
  · rcases le_or_lt 1 (B / A) with hc2 | hc2
    · rw [min_eq_left hc2, max_eq_right zero_le_one]
      have hAB : A ≤ B := (one_le_div hA).mp hc2
      have k1 : 0 ≤ A * (1 - t) := mul_nonneg hA.le (by linarith)
      have h1b : 0 ≤ 2 * B - A * (t + 1) := by nlinarith [k1]
      have h1 : 0 ≤ (1 - t) * (2 * B - A * (t + 1)) := mul_nonneg (by linarith) h1b
      nlinarith [h1]
    · rw [min_eq_right hc2.le, max_eq_right hc.le]
      have key : A * (B / A) ^ 2 - 2 * B * (B / A) = -(B ^ 2) / A := by
        field_simp
        ring
      rw [key, div_le_iff₀ hA]
      nlinarith [sq_nonneg (A * t - B)]

/-- The distance returned by the hit-tester is a lower bound on the distance
to every point of the segment. -/
theorem segDistVal_le (px py x1 y1 x2 y2 t : ℝ) (ht0 : 0 ≤ t) (ht1 : t ≤ 1) :
    segDistVal px py x1 y1 x2 y2 ≤
      realHypot (px - (x1 + t * (x2 - x1))) (py - (y1 + t * (y2 - y1))) := by
  unfold segDistVal
  by_cases h : (x2 - x1 = 0 ∧ y2 - y1 = 0)
  · rw [if_pos h]
    rw [h.1, h.2]
    simp
  · rw [if_neg h]
    have hA : x2 - x1 ≠ 0 ∨ y2 - y1 ≠ 0 := by tauto
    have hApos : 0 < (x2 - x1) * (x2 - x1) + (y2 - y1) * (y2 - y1) := by
      rcases hA with h1 | h1
      · linarith [mul_self_pos.mpr h1, mul_self_nonneg (y2 - y1)]
      · linarith [mul_self_pos.mpr h1, mul_self_nonneg (x2 - x1)]
    set dx := x2 - x1 with hdx
    set dy := y2 - y1 with hdy
    have hquad := quad_min_clamped (dx * dx + dy * dy)
      ((px - x1) * dx + (py - y1) * dy) t hApos ht0 ht1
    apply Real.sqrt_le_sqrt
    set s := max 0 (min 1 (((px - x1) * dx + (py - y1) * dy) / (dx * dx + dy * dy))) with hs
    nlinarith [hquad]

/-- C10: on every query point and finite segment endpoints,
`distanceToSegment` returns the minimum Euclidean distance from the point to
the segment: the value is non-negative, is at most the distance to either
endpoint (and to every point of the segment), and equals the plain distance
to the first endpoint when the endpoints coincide. -/
theorem distanceToSegment_is_min_dist (px py x1 y1 x2 y2 : ℝ) :
    distanceToSegment px py (.fin x1) (.fin y1) (.fin x2) (.fin y2) =
      .fin (segDistVal px py x1 y1 x2 y2) ∧
    0 ≤ segDistVal px py x1 y1 x2 y2 ∧
    segDistVal px py x1 y1 x2 y2 ≤ realHypot (px - x1) (py - y1) ∧
    segDistVal px py x1 y1 x2 y2 ≤ realHypot (px - x2) (py - y2) ∧
    (x1 = x2 → y1 = y2 → segDistVal px py x1 y1 x2 y2 = realHypot (px - x1) (py - y1)) ∧
    (∀ t, 0 ≤ t → t ≤ 1 →
      segDistVal px py x1 y1 x2 y2 ≤
        realHypot (px - (x1 + t * (x2 - x1))) (py - (y1 + t * (y2 - y1)))) := by
  refine ⟨distanceToSegment_fin px py x1 y1 x2 y2, ?_, ?_, ?_, ?_,
    fun t => segDistVal_le px py x1 y1 x2 y2 t⟩
  · simp only [segDistVal]
    by_cases h : (x2 - x1 = 0 ∧ y2 - y1 = 0)
    · rw [if_pos h]
      exact Real.sqrt_nonneg _
    · rw [if_neg h]
      exact Real.sqrt_nonneg _
  · have := segDistVal_le px py x1 y1 x2 y2 0 le_rfl zero_le_one
    simpa using this
  · have := segDistVal_le px py x1 y1 x2 y2 1 zero_le_one le_rfl
    have harg1 : x1 + 1 * (x2 - x1) = x2 := by ring
    have harg2 : y1 + 1 * (y2 - y1) = y2 := by ring
    rwa [harg1, harg2] at this
  · intro h1 h2
    unfold segDistVal
    rw [if_pos ⟨by rw [← h1]; ring, by rw [← h2]; ring⟩]

/-- Witness for C10 at coincident endpoints. -/
theorem distanceToSegment_is_min_dist_witness :
    segDistVal 3 4 0 0 0 0 = realHypot (3 - 0) (4 - 0) :=
  (distanceToSegment_is_min_dist 3 4 0 0 0 0).2.2.2.2.1 rfl rfl

/-! ## C9: zero-length segments in the hit-tester -/

/-- A LineString feature whose two vertices coincide (one zero-length
segment), placed at the origin. -/
def lineRepeatFeature : JVal :=
  .obj [("type", .str "Feature"),
        ("geometry", .obj [("type", .str "LineString"),
          ("coordinates", .arr [.arr [.num (.fin 0), .num (.fin 0)],
                                .arr [.num (.fin 0), .num (.fin 0)]])])]

/-- The internal feature wrapping `lineRepeatFeature`. -/
def lineRepeatIF : IFeature := { id := .num (.fin 0), feature := lineRepeatFeature }

/-- The initial-viewport pixel position of the repeated vertex on a 100×100
surface. -/
theorem mercatorToCanvas_center :
    mercatorToCanvas vpId (.fin 2⁻¹) (.fin 2⁻¹) 100 100 = (.fin 50, .fin 50) := by
  simp only [mercatorToCanvas, vpId, jsMul_fin, jsAdd_fin]
  norm_num

/-- C9: hit-testing a LineString with a single repeated vertex performs no
division by zero — `distanceToSegment` takes its both-deltas-zero fallback
and returns the plain point distance — and the hit-test still reports the
feature whenever the query pixel is within the line tolerance (8 pixels with
default styles) of the vertex. -/
theorem hitTest_zero_length_segment (x y : ℝ)
    (h : realHypot (x - 50) (y - 50) ≤ 8) :
    hitTest defaultStyles vpId 100 100 [lineRepeatIF] x y = some lineRepeatIF ∧
    distanceToSegment x y (.fin 50) (.fin 50) (.fin 50) (.fin 50) =
      .fin (realHypot (x - 50) (y - 50)) := by
  have hd : distanceToSegment x y (.fin 50) (.fin 50) (.fin 50) (.fin 50) =
      .fin (realHypot (x - 50) (y - 50)) := by
    rw [distanceToSegment_fin]
    congr 1
    simp only [segDistVal]
    rw [if_pos ⟨by ring, by ring⟩]
  refine ⟨?_, hd⟩
  have htol : orNum ((defaultStyles.line).bind (fun s => s.lineWidth)) 2 + 6 = 8 := by
    norm_num [defaultStyles, orNum]
  have hmatch : hitMatch defaultStyles vpId 100 100 x y lineRepeatIF = true := by
    simpa [hitMatch, lineRepeatIF, lineRepeatFeature, JVal.get, JVal.truthy,
      JVal.eqStr, JVal.items, JVal.atIdx, JVal.toNum, htol,
      lonLatToMercator_origin, mercatorToCanvas_center, hd] using h
  simp [hitTest, List.find?, hmatch]

/-! ## C5: reverse-order hit-testing -/

/-- The lower of two overlapping point features at the origin. -/
def ptIF0 : IFeature := { id := .num (.fin 0), feature := ptFeature (.fin 0) (.fin 0) }

/-- The later-drawn of two overlapping point features at the origin. -/
def ptIF1 : IFeature := { id := .num (.fin 1), feature := ptFeature (.fin 0) (.fin 0) }

/-- C5: `hitTest` iterates the feature list in reverse order and returns the
first match: the result is `some f` exactly when `f` matches and no feature
drawn after `f` matches; the result is `none` exactly when no feature
matches; and for two overlapping Point features at the same location the
feature with the higher draw order is returned. -/
theorem hitTest_reverse_first_match (styles : Styles) (vp : Viewport) (cssW cssH x y : ℝ)
    (fs : List IFeature) :
    (∀ f, hitTest styles vp cssW cssH fs x y = some f ↔
      (hitMatch styles vp cssW cssH x y f = true ∧
       ∃ l1 l2, fs = l1 ++ f :: l2 ∧
         ∀ g ∈ l2, hitMatch styles vp cssW cssH x y g = false)) ∧
    (hitTest styles vp cssW cssH fs x y = none ↔
      ∀ f ∈ fs, hitMatch styles vp cssW cssH x y f = false) ∧
    hitTest defaultStyles vpId 100 100 [ptIF0, ptIF1] 50 50 = some ptIF1 := by
  refine ⟨?_, ?_, ?_⟩
  · intro f
    rw [hitTest, List.find?_eq_some]
    constructor
    · rintro ⟨hp, as, bs, hsplit, hno⟩
      refine ⟨hp, bs.reverse, as.reverse, ?_, ?_⟩
      · have := congrArg List.reverse hsplit
        simpa [List.reverse_append] using this
      · intro g hg
        have := hno g (by simpa using hg)
        simpa using this
    · rintro ⟨hp, l1, l2, hsplit, hno⟩
      refine ⟨hp, l2.reverse, l1.reverse, ?_, ?_⟩
      · rw [hsplit]
        simp [List.reverse_append]
      · intro g hg
        have := hno g (by simpa using hg)
        simpa using this
  · rw [hitTest, List.find?_eq_none]
    constructor <;> intro h f hf
    · simpa using h f (by simpa using hf)
    · simpa using h f (by simpa using hf)
  · have hr : orNum ((defaultStyles.point).bind (fun s => s.radius)) 4 + 4 = 8 := by
      norm_num [defaultStyles, orNum]
    have hmatch1 : hitMatch defaultStyles vpId 100 100 50 50 ptIF1 = true := by
      simp [hitMatch, ptIF1, ptFeature, JVal.get, JVal.truthy, JVal.eqStr, JVal.atIdx,
        JVal.toNum, lonLatToMercator_origin, mercatorToCanvas_center, hr, realHypot]
    simp [hitTest, List.find?, hmatch1]

/-- Witness for C9 at the exact vertex pixel. -/
theorem hitTest_zero_length_segment_witness :
    hitTest defaultStyles vpId 100 100 [lineRepeatIF] 50 50 = some lineRepeatIF ∧
    distanceToSegment 50 50 (.fin 50) (.fin 50) (.fin 50) (.fin 50) =
      .fin (realHypot (50 - 50) (50 - 50)) :=
  hitTest_zero_length_segment 50 50 (by norm_num [realHypot])

/-- Witness for C5: the no-match direction at the empty feature list. -/
theorem hitTest_reverse_first_match_witness :
    hitTest defaultStyles vpId 100 100 [] 0 0 = none :=
  ((hitTest_reverse_first_match defaultStyles vpId 100 100 0 0 []).2.1).mpr (by simp)

/-! ## C6: finiteness and monotonicity of the projector -/

/-- The radian angle of a latitude strictly between the poles lies strictly
inside `(-π/2, π/2)`. -/
theorem theta_mem_Ioo (lat : ℝ) (h1 : -90 < lat) (h2 : lat < 90) :
    lat * Real.pi / 180 ∈ Set.Ioo (-(Real.pi / 2)) (Real.pi / 2) := by
  constructor
  · nlinarith [mul_pos (by linarith : (0:ℝ) < lat + 90) Real.pi_pos]
  · nlinarith [mul_pos (by linarith : (0:ℝ) < 90 - lat) Real.pi_pos]

/-- Inside `(-π/2, π/2)` the sine stays strictly above `-1`. -/
theorem neg_one_lt_sin_of_mem (θ : ℝ) (hθ : θ ∈ Set.Ioo (-(Real.pi / 2)) (Real.pi / 2)) :
    -1 < Real.sin θ := by
  have hmono := Real.strictMonoOn_sin
    (Set.mem_Icc.mpr ⟨le_refl _, by linarith [hθ.1, hθ.2]⟩)
    (Set.mem_Icc.mpr ⟨hθ.1.le, hθ.2.le⟩) hθ.1
  rwa [Real.sin_neg, Real.sin_pi_div_two] at hmono

/-- Rewriting the inner Mercator expression over a nonvanishing cosine. -/
theorem gval_eq (θ : ℝ) (hcos : Real.cos θ ≠ 0) :
    Real.tan θ + 1 / Real.cos θ = (1 + Real.sin θ) / Real.cos θ := by
  rw [Real.tan_eq_sin_div_cos]
  field_simp
  ring

/-- The inner Mercator expression is positive strictly between the poles. -/
theorem gval_pos (θ : ℝ) (hθ : θ ∈ Set.Ioo (-(Real.pi / 2)) (Real.pi / 2)) :
    0 < Real.tan θ + 1 / Real.cos θ := by
  have hcos := Real.cos_pos_of_mem_Ioo hθ
  rw [gval_eq θ (ne_of_gt hcos)]
  exact div_pos (by linarith [neg_one_lt_sin_of_mem θ hθ]) hcos

/-- On latitudes strictly between the poles the y formula takes its finite
branch with value `mercYval`. -/
theorem mercYfin_valid (lat : ℝ) (h1 : -90 < lat) (h2 : lat < 90) :
    mercYfin lat = .fin (mercYval lat) := by
  have hmem := theta_mem_Ioo lat h1 h2
  have hcos := Real.cos_pos_of_mem_Ioo hmem
  have hg := gval_pos _ hmem
  unfold mercYfin mercYval
  rw [if_neg (ne_of_gt hcos), if_pos hg]

/-- The inner Mercator expression, as `(1 + sin)/cos`, is strictly increasing
on `(-π/2, π/2)`. -/
theorem gval_strictMonoOn :
    StrictMonoOn (fun θ => (1 + Real.sin θ) / Real.cos θ)
      (Set.Ioo (-(Real.pi / 2)) (Real.pi / 2)) := by
  apply strictMonoOn_of_deriv_pos (convex_Ioo _ _)
  · apply ContinuousOn.div
    · exact (continuous_const.add Real.continuous_sin).continuousOn
    · exact Real.continuous_cos.continuousOn
    · intro θ hθ
      exact ne_of_gt (Real.cos_pos_of_mem_Ioo hθ)
  · intro θ hθ
    rw [interior_Ioo] at hθ
    have hcos := Real.cos_pos_of_mem_Ioo hθ
    have hd : HasDerivAt (fun θ => (1 + Real.sin θ) / Real.cos θ)
        ((Real.cos θ * Real.cos θ - (1 + Real.sin θ) * (-Real.sin θ)) / (Real.cos θ) ^ 2)
        θ :=
      ((Real.hasDerivAt_sin θ).const_add 1).div (Real.hasDerivAt_cos θ) (ne_of_gt hcos)
    rw [hd.deriv]
    have hsin := neg_one_lt_sin_of_mem θ hθ
    have hnum : 0 < Real.cos θ * Real.cos θ - (1 + Real.sin θ) * (-Real.sin θ) := by
      nlinarith [Real.sin_sq_add_cos_sq θ]
    exact div_pos hnum (by positivity)

/-- The y value of the projection is strictly decreasing in the latitude on
the open strip between the poles. -/
theorem mercYval_strictAnti (a b : ℝ) (ha1 : -90 < a) (hb2 : b < 90) (hab : a < b) :
    mercYval b < mercYval a := by
  have ha2 : a < 90 := lt_trans hab hb2
  have hb1 : -90 < b := lt_trans ha1 hab
  have hma := theta_mem_Ioo a ha1 ha2
  have hmb := theta_mem_Ioo b hb1 hb2
  have hθ : a * Real.pi / 180 < b * Real.pi / 180 := by
    nlinarith [mul_pos (sub_pos.mpr hab) Real.pi_pos]
  have hcosa := Real.cos_pos_of_mem_Ioo hma
  have hcosb := Real.cos_pos_of_mem_Ioo hmb
  have hga := gval_pos _ hma
  have hgb := gval_pos _ hmb
  have hmono := gval_strictMonoOn hma hmb hθ
  have hlt : Real.tan (a * Real.pi / 180) + 1 / Real.cos (a * Real.pi / 180) <
      Real.tan (b * Real.pi / 180) + 1 / Real.cos (b * Real.pi / 180) := by
    rw [gval_eq _ (ne_of_gt hcosa), gval_eq _ (ne_of_gt hcosb)]
    exact hmono
  have hlog := Real.log_lt_log hga hlt
  have hpi := Real.pi_pos
  unfold mercYval
  have hdiv : Real.log (Real.tan (a * Real.pi / 180) + 1 / Real.cos (a * Real.pi / 180)) /
      Real.pi <
      Real.log (Real.tan (b * Real.pi / 180) + 1 / Real.cos (b * Real.pi / 180)) /
      Real.pi := by
    exact div_lt_div_of_pos_right hlog hpi
  linarith

/-- C6: for every longitude and every latitude strictly between -90 and 90
the projection returns two finite numbers, with the x value strictly
increasing in the longitude and the y value strictly decreasing in the
latitude. -/
theorem projection_finite_and_monotone (lon lon' lat lat' : ℝ)
    (h1 : -90 < lat) (h2 : lat < 90) (h1' : -90 < lat') (h2' : lat' < 90)
    (hlon : lon < lon') (hlat : lat < lat') :
    lonLatToMercator (.fin lon) (.fin lat) = (.fin (mercXval lon), .fin (mercYval lat)) ∧
    lonLatToMercator (.fin lon') (.fin lat') =
      (.fin (mercXval lon'), .fin (mercYval lat')) ∧
    mercXval lon < mercXval lon' ∧
    mercYval lat' < mercYval lat := by
  refine ⟨?_, ?_, ?_, mercYval_strictAnti lat lat' h1 h2' hlat⟩
  · rw [lonLatToMercator_fin, mercYfin_valid lat h1 h2]
  · rw [lonLatToMercator_fin, mercYfin_valid lat' h1' h2']
  · unfold mercXval
    linarith

/-- Witness for C6 at longitudes 0 and 1 and latitudes 0 and 45. -/
theorem projection_finite_and_monotone_witness :
    lonLatToMercator (.fin 0) (.fin 0) = (.fin (mercXval 0), .fin (mercYval 0)) ∧
    mercXval 0 < mercXval 1 ∧ mercYval 45 < mercYval 0 := by
  have h := projection_finite_and_monotone 0 1 0 45 (by norm_num) (by norm_num)
    (by norm_num) (by norm_num) (by norm_num) (by norm_num)
  exact ⟨h.1, h.2.2.1, h.2.2.2⟩

end GeoCanvas
